import Mathlib

/-!
Shallow embedding of the demand-forecast pipeline of
`src/pythonservices/server.py`.

Modelling conventions:
* calendar dates are day numbers (days since 1970-01-01, which is a
  Thursday, pandas `dayofweek` 3);
* demand quantities are rationals (the source works with floats; all
  claims under study are about exact structural facts, so exact
  rational arithmetic is the faithful idealisation);
* the fitted `RandomForestRegressor` is an uninterpreted row-wise
  predictor `fit : List FeatureRow → FeatureRow → ℚ` (fit on the
  training rows, then predict each test row independently); sklearn
  raises `ValueError` when `fit` receives an empty sample, which is
  embedded as an `Except.error`;
* pandas `NaN` propagation from `shift` / `rolling` is embedded with
  `Option`, and `dropna` with `Option.bind` over all fallible columns.
-/

namespace Server

/-- An observation delivered by the data source: one
(date, quantity_sold) row of the `historical_sales` table. -/
abbrev Obs := ℕ × ℚ

/-- Total quantity observed on day `d`: the `groupby("Date").sum()`
aggregation of `load_sales_from_supabase`, evaluated at one date.
Days carrying no observation get `0`. -/
def sumAt (obs : List Obs) (d : ℕ) : ℚ :=
  ((obs.filter (fun o => o.1 = d)).map Prod.snd).sum

/-- `raw["Date"].min()`. -/
def dateMin (obs : List Obs) : ℕ := ((obs.map Prod.fst).min?).getD 0

/-- `raw["Date"].max()`. -/
def dateMax (obs : List Obs) : ℕ := ((obs.map Prod.fst).max?).getD 0

/-- Series Reconstructor: `pd.date_range(min, max, freq="D")` followed by
`reindex` and `fillna(0)`.  Day `dmin + k` carries the aggregated
quantity for that date, which is `0` exactly when the date is absent
from the observations. -/
def reconstruct (obs : List Obs) : List (ℕ × ℚ) :=
  (List.range (dateMax obs - dateMin obs + 1)).map
    (fun k => (dateMin obs + k, sumAt obs (dateMin obs + k)))

/-- Demand of the reconstructed series at position `i` (the `Demand`
column). -/
def dem (s : List (ℕ × ℚ)) (i : ℕ) : ℚ := (s.map Prod.snd).getD i 0

/-- Date of the reconstructed series at position `i` (the `Date`
column). -/
def dateAt (s : List (ℕ × ℚ)) (i : ℕ) : ℕ := (s.map Prod.fst).getD i 0

/-- The trailing window of width `w` ending at position `i` (inclusive),
as used by pandas `rolling(window=w)`. -/
def win (s : List (ℕ × ℚ)) (w i : ℕ) : List ℚ :=
  (List.range w).map (fun t => dem s (i + 1 - w + t))

/-- Arithmetic mean of a list (`np.mean` / pandas `.mean()`). -/
def listMean (xs : List ℚ) : ℚ := xs.sum / (xs.length : ℚ)

/-- Rolling mean of width `w` at position `i`. -/
def winMean (s : List (ℕ × ℚ)) (w i : ℕ) : ℚ := listMean (win s w i)

/-- Sample variance (pandas `.std()` uses `ddof = 1`) of the trailing
window of width `w` at position `i`.  The `RollStd7` column of the code is
the square root of this value; the square is kept so the embedding
stays inside `ℚ`.  No claim depends on the numeric value of this
column, only on where it is defined. -/
def winVar (s : List (ℕ × ℚ)) (w i : ℕ) : ℚ :=
  ((win s w i).map (fun x => (x - winMean s w i) ^ 2)).sum / ((w : ℚ) - 1)

/-- Tail of the recursive exponential moving average
(`ewm(span, adjust=False)`): `y_i = (1 - a) * y_(i-1) + a * x_i`. -/
def emaAux (a prev : ℚ) : List ℚ → List ℚ
  | [] => []
  | x :: xs => ((1 - a) * prev + a * x) :: emaAux a ((1 - a) * prev + a * x) xs

/-- Exponential moving average with smoothing factor `a`; the first
output equals the first observation (`adjust=False`). -/
def emaList (a : ℚ) : List ℚ → List ℚ
  | [] => []
  | x :: xs => x :: emaAux a x xs

/-- EMA value at position `i` of the demand column. -/
def emaAt (a : ℚ) (s : List (ℕ × ℚ)) (i : ℕ) : ℚ :=
  (emaList a (s.map Prod.snd)).getD i 0

/-- Gregorian month (1..12) of a day number, as pandas `dt.month`
computes it; the standard civil-from-days algorithm shifted to the
era 0000-03-01. -/
def monthOf (z : ℕ) : ℕ :=
  let d := z + 719468
  let doe := d % 146097
  let yoe := (doe - doe / 1460 + doe / 36524 - doe / 146096) / 365
  let doy := doe - (365 * yoe + yoe / 4 - yoe / 100)
  let mp := (5 * doy + 2) / 153
  if mp < 10 then mp + 3 else mp - 9

/-- One row of the feature table right after all columns are assigned,
before `dropna`: columns produced by `shift` / `rolling` are `Option`
(`none` models `NaN`). -/
structure RawFeatureRow where
  Date : ℕ
  Demand : ℚ
  DayOfWeek : ℕ
  Month : ℕ
  Lag1 : Option ℚ
  Lag7 : Option ℚ
  Lag90 : Option ℚ
  RollMean7 : Option ℚ
  RollMean14 : Option ℚ
  RollStd7Sq : Option ℚ
  EMA7 : ℚ
  EMA30 : ℚ
  TimeIndex : ℕ
  IsWeekend : ℕ
deriving DecidableEq

/-- One row of the engineered feature table after `dropna`: every
feature is defined. -/
structure FeatureRow where
  Date : ℕ
  Demand : ℚ
  DayOfWeek : ℕ
  Month : ℕ
  Lag1 : ℚ
  Lag7 : ℚ
  Lag90 : ℚ
  RollMean7 : ℚ
  RollMean14 : ℚ
  RollStd7Sq : ℚ
  EMA7 : ℚ
  EMA30 : ℚ
  TimeIndex : ℕ
  IsWeekend : ℕ
deriving DecidableEq

instance : Inhabited FeatureRow :=
  ⟨{ Date := 0, Demand := 0, DayOfWeek := 0, Month := 0, Lag1 := 0, Lag7 := 0,
     Lag90 := 0, RollMean7 := 0, RollMean14 := 0, RollStd7Sq := 0, EMA7 := 0,
     EMA30 := 0, TimeIndex := 0, IsWeekend := 0 }⟩

/-- The feature columns of `prepare_features` evaluated at position `i`
of the series `s`, before `dropna`.  `shift(k)` is `NaN` (here `none`)
for positions `i < k`; `rolling(window=w)` is `NaN` for positions with
`i + 1 < w`; `TimeIndex` is `np.arange(len(df))`, assigned before
`dropna`. -/
def rawRow (s : List (ℕ × ℚ)) (i : ℕ) : RawFeatureRow where
  Date := dateAt s i
  Demand := dem s i
  DayOfWeek := (dateAt s i + 3) % 7
  Month := monthOf (dateAt s i)
  Lag1 := if 1 ≤ i then some (dem s (i - 1)) else none
  Lag7 := if 7 ≤ i then some (dem s (i - 7)) else none
  Lag90 := if 90 ≤ i then some (dem s (i - 90)) else none
  RollMean7 := if 7 ≤ i + 1 then some (winMean s 7 i) else none
  RollMean14 := if 14 ≤ i + 1 then some (winMean s 14 i) else none
  RollStd7Sq := if 7 ≤ i + 1 then some (winVar s 7 i) else none
  EMA7 := emaAt (2 / (7 + 1)) s i
  EMA30 := emaAt (2 / (30 + 1)) s i
  TimeIndex := i
  IsWeekend := if (dateAt s i + 3) % 7 = 5 ∨ (dateAt s i + 3) % 7 = 6 then 1 else 0

/-- The `dropna` step, rowwise: a row is kept exactly when all its
fallible columns are defined.  `reset_index(drop=True)` renumbers the
frame index (list positions here) and leaves every column, including
`TimeIndex`, untouched. -/
def finalize (r : RawFeatureRow) : Option FeatureRow :=
  r.Lag1.bind fun l1 => r.Lag7.bind fun l7 => r.Lag90.bind fun l90 =>
  r.RollMean7.bind fun m7 => r.RollMean14.bind fun m14 =>
  r.RollStd7Sq.map fun v7 =>
    { Date := r.Date, Demand := r.Demand, DayOfWeek := r.DayOfWeek,
      Month := r.Month, Lag1 := l1, Lag7 := l7, Lag90 := l90,
      RollMean7 := m7, RollMean14 := m14, RollStd7Sq := v7,
      EMA7 := r.EMA7, EMA30 := r.EMA30, TimeIndex := r.TimeIndex,
      IsWeekend := r.IsWeekend }

/-- `prepare_features`: assign every feature column over the whole
series, then `dropna().reset_index(drop=True)`. -/
def prepare_features (s : List (ℕ × ℚ)) : List FeatureRow :=
  ((List.range s.length).map (rawRow s)).filterMap finalize

/-- The fully-defined feature row at series position `i`; for `90 ≤ i`
this is what `finalize (rawRow s i)` retains. -/
def featureRowAt (s : List (ℕ × ℚ)) (i : ℕ) : FeatureRow where
  Date := dateAt s i
  Demand := dem s i
  DayOfWeek := (dateAt s i + 3) % 7
  Month := monthOf (dateAt s i)
  Lag1 := dem s (i - 1)
  Lag7 := dem s (i - 7)
  Lag90 := dem s (i - 90)
  RollMean7 := winMean s 7 i
  RollMean14 := winMean s 14 i
  RollStd7Sq := winVar s 7 i
  EMA7 := emaAt (2 / (7 + 1)) s i
  EMA30 := emaAt (2 / (30 + 1)) s i
  TimeIndex := i
  IsWeekend := if (dateAt s i + 3) % 7 = 5 ∨ (dateAt s i + 3) % 7 = 6 then 1 else 0

/-- Python `round(x, 2)` idealised over `ℚ`: round `100 * x` to the
nearest integer, ties to even. -/
def rhe (x : ℚ) : ℤ :=
  if x - ⌊x⌋ < 1 / 2 then ⌊x⌋
  else if 1 / 2 < x - ⌊x⌋ then ⌊x⌋ + 1
  else if 2 ∣ ⌊x⌋ then ⌊x⌋ else ⌊x⌋ + 1

/-- `round(accuracy, 2)`. -/
def round2 (x : ℚ) : ℚ := (rhe (100 * x) : ℚ) / 100

/-- `np.mean(np.abs((y_test - forecast) / (y_test + 1e-5))) * 100`. -/
def mape (actual predicted : List ℚ) : ℚ :=
  100 * listMean ((actual.zip predicted).map
    (fun q => |q.1 - q.2| / (q.1 + 1 / 100000)))

/-- The reported accuracy: `round(max(0.0, 100.0 - mape), 2)`. -/
def accuracyOf (actual predicted : List ℚ) : ℚ :=
  round2 (max 0 (100 - mape actual predicted))

/-- The horizon shrink: `if len(df_feat) <= days: days = max(7, len(df_feat) // 3)`. -/
def effDays (L D : ℕ) : ℕ := if L ≤ D then max 7 (L / 3) else D

/-- Python slice `xs[:-d]` for a nonnegative `d` (the training split). -/
def pyInit {α : Type*} (l : List α) (d : ℕ) : List α :=
  if d = 0 then [] else l.take (l.length - d)

/-- Python slice `xs[-d:]` for a nonnegative `d` (the test split). -/
def pyTail {α : Type*} (l : List α) (d : ℕ) : List α :=
  if d = 0 then l else l.drop (l.length - d)

/-- The response bundle of the `/forecast` endpoint; dates stay day
numbers (the ISO-8601 formatting is strictly monotone in the day). -/
structure ForecastResult where
  dates : List ℕ
  actual : List ℚ
  predicted : List ℚ
  accuracy : ℚ
deriving DecidableEq

/-- The deliberate no-data sentinel. -/
def emptyResult : ForecastResult :=
  { dates := [], actual := [], predicted := [], accuracy := 0 }

/-- The error sklearn raises when `fit` is called on an empty training
matrix; it escapes the endpoint uncaught. -/
def fitErrorMsg : String :=
  "RandomForestRegressor.fit: found array with 0 sample(s)"

/-- The `/forecast` pipeline: empty/zero-data sentinel, series
reconstruction, feature engineering, horizon shrink, chronological
train/test split, model fit and rowwise prediction, accuracy. -/
def forecast (fit : List FeatureRow → FeatureRow → ℚ) (obs : List Obs)
    (days : ℕ) : Except String ForecastResult :=
  if obs = [] ∨ (obs.map Prod.snd).sum = 0 then
    .ok emptyResult
  else
    let dfFeat := prepare_features (reconstruct obs)
    let d := effDays dfFeat.length days
    let train := pyInit dfFeat d
    let test := pyTail dfFeat d
    if train = [] then
      .error fitErrorMsg
    else
      let predicted := test.map (fit train)
      let actual := test.map (fun r => r.Demand)
      .ok { dates := test.map (fun r => r.Date)
            actual := actual
            predicted := predicted
            accuracy := accuracyOf actual predicted }

/-- A constant daily series (demand 10 every day) of length `n`,
starting at day 0. -/
def constSeries (n : ℕ) : List (ℕ × ℚ) :=
  (List.range n).map (fun i => (i, (10 : ℚ)))

/-- Parallel sequences of a result bundle have equal lengths. -/
def resultAligned : Except String ForecastResult → Prop
  | .error _ => True
  | .ok r => r.dates.length = r.actual.length ∧
      r.actual.length = r.predicted.length

/-- Consecutive-day check on a date sequence: every entry is one more
than its predecessor. -/
def consecDaysB (ds : List ℕ) : Bool :=
  (ds.zip ds.tail).all (fun q => q.2 == q.1 + 1)

/-- Successful results carry strictly increasing, gap-free dates. -/
def resultConsec : Except String ForecastResult → Prop
  | .error _ => True
  | .ok r => consecDaysB r.dates = true

/-- Unfolding equation of `forecast` with the intermediate `let`
bindings inlined. -/
theorem forecast_def (fit : List FeatureRow → FeatureRow → ℚ)
    (obs : List Obs) (days : ℕ) :
    forecast fit obs days =
      if obs = [] ∨ (obs.map Prod.snd).sum = 0 then .ok emptyResult
      else if pyInit (prepare_features (reconstruct obs))
          (effDays (prepare_features (reconstruct obs)).length days) = [] then
        .error fitErrorMsg
      else
        .ok { dates := (pyTail (prepare_features (reconstruct obs))
                (effDays (prepare_features (reconstruct obs)).length days)).map
                  (fun r => r.Date)
              actual := (pyTail (prepare_features (reconstruct obs))
                (effDays (prepare_features (reconstruct obs)).length days)).map
                  (fun r => r.Demand)
              predicted := (pyTail (prepare_features (reconstruct obs))
                (effDays (prepare_features (reconstruct obs)).length days)).map
                  (fit (pyInit (prepare_features (reconstruct obs))
                    (effDays (prepare_features (reconstruct obs)).length days)))
              accuracy := accuracyOf
                ((pyTail (prepare_features (reconstruct obs))
                  (effDays (prepare_features (reconstruct obs)).length days)).map
                    (fun r => r.Demand))
                ((pyTail (prepare_features (reconstruct obs))
                  (effDays (prepare_features (reconstruct obs)).length days)).map
                    (fit (pyInit (prepare_features (reconstruct obs))
                      (effDays (prepare_features (reconstruct obs)).length days)))) } :=
  rfl

/-- Rowwise behaviour of `dropna`: a row survives exactly when it lies
at least 90 positions into the series (the `Lag90` lookback), and the
surviving row is `featureRowAt`. -/
theorem finalize_rawRow (s : List (ℕ × ℚ)) (i : ℕ) :
    finalize (rawRow s i) =
      if 90 ≤ i then some (featureRowAt s i) else none := by
  by_cases h : 90 ≤ i
  · simp only [finalize, rawRow, featureRowAt, if_pos h,
      if_pos (show 1 ≤ i by omega), if_pos (show 7 ≤ i by omega),
      if_pos (show 7 ≤ i + 1 by omega), if_pos (show 14 ≤ i + 1 by omega)]
    rfl
  · simp only [finalize, rawRow, if_neg h]
    cases h1 : (if 1 ≤ i then some (dem s (i - 1)) else none) <;>
      cases h2 : (if 7 ≤ i then some (dem s (i - 7)) else none) <;>
        simp only [Option.some_bind, Option.none_bind]

/-- A `filterMap` whose function is a guarded `some` is a
`filter`-then-`map`. -/
theorem filterMap_guard {α β : Type*} (p : α → Prop) [DecidablePred p]
    (f : α → β) (l : List α) :
    l.filterMap (fun a => if p a then some (f a) else none) =
      (l.filter (fun a => decide (p a))).map f := by
  induction l with
  | nil => simp
  | cons a t ih => by_cases h : p a <;> simp [h, ih]

/-- Filtering `range n` by `90 ≤ ·` keeps the final `n - 90` indices. -/
theorem range_filter_ge (n : ℕ) :
    (List.range n).filter (fun i => decide (90 ≤ i)) =
      (List.range (n - 90)).map (fun j => 90 + j) := by
  induction n with
  | zero => simp
  | succ m ih =>
    rw [List.range_succ, List.filter_append, ih]
    by_cases h : 90 ≤ m
    · rw [show m + 1 - 90 = (m - 90) + 1 by omega, List.range_succ,
        List.map_append]
      simp only [List.filter_cons, List.filter_nil, decide_eq_true_eq, if_pos h]
      simp only [List.map_cons, List.map_nil]
      rw [show 90 + (m - 90) = m by omega]
    · rw [show m + 1 - 90 = m - 90 by omega]
      simp [h]

/-- The engineered feature table is exactly the tail of the series from
position 90 on, turned into fully-defined feature rows. -/
theorem prepare_features_eq (s : List (ℕ × ℚ)) :
    prepare_features s =
      (List.range (s.length - 90)).map (fun j => featureRowAt s (90 + j)) := by
  unfold prepare_features
  rw [List.filterMap_map]
  have hfun : (finalize ∘ rawRow s) =
      fun i => if 90 ≤ i then some (featureRowAt s i) else none := by
    funext i
    exact finalize_rawRow s i
  rw [hfun, filterMap_guard (fun i => 90 ≤ i) (featureRowAt s),
    range_filter_ge, List.map_map]
  rfl

/-- Length of the engineered feature table. -/
theorem prepare_features_length (s : List (ℕ × ℚ)) :
    (prepare_features s).length = s.length - 90 := by
  rw [prepare_features_eq]
  simp

/-- The `j`-th retained feature row is the row of series position
`90 + j`. -/
theorem prepare_features_getD (s : List (ℕ × ℚ)) (j : ℕ)
    (h : j < (prepare_features s).length) :
    (prepare_features s).getD j default = featureRowAt s (90 + j) := by
  rw [prepare_features_length] at h
  rw [prepare_features_eq, List.getD_eq_getElem?_getD, List.getElem?_map,
    List.getElem?_range h]
  rfl

/-- Entry `i` of the reconstructed series is day `dateMin + i` carrying
the aggregated demand of that day. -/
theorem reconstruct_getD (obs : List Obs) (i : ℕ)
    (h : i < (reconstruct obs).length) :
    (reconstruct obs).getD i (0, 0) =
      (dateMin obs + i, sumAt obs (dateMin obs + i)) := by
  rw [reconstruct] at h ⊢
  simp only [List.length_map, List.length_range] at h
  rw [List.getD_eq_getElem?_getD, List.getElem?_map, List.getElem?_range h]
  rfl

/-- For nonempty observations the reported minimum date is an observed
date and a lower bound of all observed dates. -/
theorem dateMin_spec (obs : List Obs) (h : obs ≠ []) :
    dateMin obs ∈ obs.map Prod.fst ∧
      ∀ d ∈ obs.map Prod.fst, dateMin obs ≤ d := by
  have hne : obs.map Prod.fst ≠ [] := by
    simpa [List.map_eq_nil_iff] using h
  cases hm : (obs.map Prod.fst).min? with
  | none => exact absurd (List.min?_eq_none_iff.mp hm) hne
  | some m =>
    have := List.min?_eq_some_iff'.mp hm
    simpa [dateMin, hm] using this

/-- For nonempty observations the reported maximum date is an observed
date and an upper bound of all observed dates. -/
theorem dateMax_spec (obs : List Obs) (h : obs ≠ []) :
    dateMax obs ∈ obs.map Prod.fst ∧
      ∀ d ∈ obs.map Prod.fst, d ≤ dateMax obs := by
  have hne : obs.map Prod.fst ≠ [] := by
    simpa [List.map_eq_nil_iff] using h
  cases hm : (obs.map Prod.fst).max? with
  | none => exact absurd (List.max?_eq_none_iff.mp hm) hne
  | some m =>
    have := List.max?_eq_some_iff'.mp hm
    simpa [dateMax, hm] using this

/-- Days carrying no observation aggregate to demand `0`. -/
theorem sumAt_absent (obs : List Obs) (d : ℕ)
    (h : d ∉ obs.map Prod.fst) : sumAt obs d = 0 := by
  rw [sumAt]
  have : obs.filter (fun o => decide (o.1 = d)) = [] := by
    rw [List.filter_eq_nil_iff]
    intro a ha
    simp only [decide_eq_true_eq]
    intro had
    exact h (List.mem_map.mpr ⟨a, ha, had⟩)
  rw [this]
  rfl

/-- Rounding to the nearest integer maps a nonnegative argument to a
nonnegative integer. -/
theorem rhe_nonneg (x : ℚ) (h : 0 ≤ x) : 0 ≤ rhe x := by
  have hf : (0 : ℤ) ≤ ⌊x⌋ := Int.floor_nonneg.mpr h
  unfold rhe
  split_ifs <;> omega

/-- Rounding to the nearest integer never exceeds an integer upper
bound of the argument. -/
theorem rhe_le (x : ℚ) (B : ℤ) (h : x ≤ (B : ℚ)) : rhe x ≤ B := by
  have hfB : ⌊x⌋ ≤ B := by
    have hfl := Int.floor_le_floor h
    rwa [Int.floor_intCast] at hfl
  have hfx : (⌊x⌋ : ℚ) ≤ x := Int.floor_le x
  unfold rhe
  split_ifs with h1 h2 h3
  · exact hfB
  · have hlt : (⌊x⌋ : ℚ) < (B : ℚ) := by linarith
    have : ⌊x⌋ < B := by exact_mod_cast hlt
    omega
  · exact hfB
  · have hlt : (⌊x⌋ : ℚ) < (B : ℚ) := by linarith
    have : ⌊x⌋ < B := by exact_mod_cast hlt
    omega

/-- `round(y, 2)` keeps a value of `[0, 100]` inside `[0, 100]`. -/
theorem round2_bounds (y : ℚ) (h0 : 0 ≤ y) (h100 : y ≤ 100) :
    0 ≤ round2 y ∧ round2 y ≤ 100 := by
  have ha : 0 ≤ rhe (100 * y) := rhe_nonneg _ (by linarith)
  have hb : rhe (100 * y) ≤ 10000 := rhe_le _ 10000 (by push_cast; linarith)
  constructor
  · rw [round2]
    apply div_nonneg _ (by norm_num)
    exact_mod_cast ha
  · rw [round2, div_le_iff₀ (by norm_num : (0:ℚ) < 100)]
    calc ((rhe (100 * y) : ℚ)) ≤ ((10000 : ℤ) : ℚ) := by exact_mod_cast hb
    _ = 100 * 100 := by norm_num

/-- A list of nonnegative rationals summing to zero is all zeros. -/
theorem list_sum_zero (l : List ℚ) (hpos : ∀ x ∈ l, 0 ≤ x)
    (hs : l.sum = 0) : ∀ x ∈ l, x = 0 := by
  induction l with
  | nil => simp
  | cons a t ih =>
    rw [List.sum_cons] at hs
    have hta : 0 ≤ a := hpos a (by simp)
    have htt : 0 ≤ t.sum :=
      List.sum_nonneg (fun x hx => hpos x (by simp [hx]))
    have ha0 : a = 0 := by linarith
    have ht0 : t.sum = 0 := by linarith
    intro x hx
    rcases List.mem_cons.mp hx with hxa | hxt
    · rw [hxa, ha0]
    · exact ih (fun y hy => hpos y (by simp [hy])) ht0 x hxt

/-- Lists of equal length whose zipped pairs agree are equal. -/
theorem zip_eq_of_forall (a : List ℚ) : ∀ p : List ℚ,
    a.length = p.length → (∀ q ∈ a.zip p, q.1 = q.2) → a = p := by
  induction a with
  | nil =>
    intro p hl _
    cases p with
    | nil => rfl
    | cons y u => simp at hl
  | cons x t ih =>
    intro p hl hq
    cases p with
    | nil => simp at hl
    | cons y u =>
      have hxy : x = y := hq (x, y) (by simp)
      rw [hxy]
      congr 1
      exact ih u (by simpa using hl)
        (fun q hq' => hq q (by simp [hq']))

/-- Both components of a self-zip agree. -/
theorem zip_self_eq (a : List ℚ) : ∀ q ∈ a.zip a, q.1 = q.2 := by
  induction a with
  | nil => simp
  | cons x t ih =>
    intro q hq
    rcases List.mem_cons.mp (by simpa using hq) with hh | hh
    · rw [hh]
    · exact ih q hh

/-- The MAPE of nonnegative actuals is nonnegative. -/
theorem mape_nonneg (a p : List ℚ) (hpos : ∀ x ∈ a, 0 ≤ x) :
    0 ≤ mape a p := by
  rw [mape]
  apply mul_nonneg (by norm_num)
  rw [listMean]
  apply div_nonneg _ (by positivity)
  apply List.sum_nonneg
  intro x hx
  rcases List.mem_map.mp hx with ⟨q, hqmem, rfl⟩
  have hq1 : 0 ≤ q.1 := hpos q.1 (List.of_mem_zip hqmem).1
  apply div_nonneg (abs_nonneg _)
  linarith

/-- With a nonempty test window, nonnegative actuals and aligned
predictions, MAPE vanishes exactly on a perfect prediction. -/
theorem mape_eq_zero_iff (a p : List ℚ) (h0 : a ≠ [])
    (hl : a.length = p.length) (hpos : ∀ x ∈ a, 0 ≤ x) :
    mape a p = 0 ↔ a = p := by
  constructor
  · intro hm
    rw [mape] at hm
    have hmean : listMean ((a.zip p).map
        (fun q => |q.1 - q.2| / (q.1 + 1 / 100000))) = 0 := by
      rcases mul_eq_zero.mp hm with hc | hc
      · norm_num at hc
      · exact hc
    rw [listMean] at hmean
    have hlen : (((a.zip p).map
        (fun q => |q.1 - q.2| / (q.1 + 1 / 100000))).length : ℚ) ≠ 0 := by
      simp only [List.length_map, List.length_zip, hl, min_self]
      have : p.length ≠ 0 := by
        rw [← hl]
        simpa [List.length_eq_zero] using h0
      exact_mod_cast this
    have hsum : ((a.zip p).map
        (fun q => |q.1 - q.2| / (q.1 + 1 / 100000))).sum = 0 := by
      rcases div_eq_zero_iff.mp hmean with hc | hc
      · exact hc
      · exact absurd hc hlen
    have hterm : ∀ x ∈ (a.zip p).map
        (fun q => |q.1 - q.2| / (q.1 + 1 / 100000)), 0 ≤ x := by
      intro x hx
      rcases List.mem_map.mp hx with ⟨q, hqmem, rfl⟩
      have hq1 : 0 ≤ q.1 := hpos q.1 (List.of_mem_zip hqmem).1
      apply div_nonneg (abs_nonneg _)
      linarith
    have hzero := list_sum_zero _ hterm hsum
    apply zip_eq_of_forall a p hl
    intro q hq
    have hq0 := hzero (|q.1 - q.2| / (q.1 + 1 / 100000))
      (List.mem_map.mpr ⟨q, hq, rfl⟩)
    have hq1 : 0 ≤ q.1 := hpos q.1 (List.of_mem_zip hq).1
    have hden : q.1 + 1 / 100000 ≠ 0 := by positivity
    rcases div_eq_zero_iff.mp hq0 with hc | hc
    · have := abs_eq_zero.mp hc
      linarith [this]
    · exact absurd hc hden
  · rintro rfl
    rw [mape, listMean]
    have hmap : (a.zip a).map
        (fun q => |q.1 - q.2| / (q.1 + 1 / 100000)) =
          (a.zip a).map (fun _ => 0) := by
      apply List.map_congr_left
      intro q hq
      rw [zip_self_eq a q hq]
      simp
    rw [hmap]
    simp

/-- Dropping from a step-1 `range'` yields a shifted `range'`. -/
theorem drop_range' : ∀ (k s l : ℕ),
    (List.range' s l).drop k = List.range' (s + k) (l - k) := by
  intro k
  induction k with
  | zero => intro s l; simp
  | succ m ih =>
    intro s l
    cases l with
    | zero => simp
    | succ l' =>
      rw [List.range'_succ, List.drop_succ_cons, ih (s + 1) l',
        show s + 1 + m = s + (m + 1) by omega,
        show l' - m = l' + 1 - (m + 1) by omega]

/-- Unfolding of the consecutive-day check on two or more entries. -/
theorem consecDaysB_cons (a b : ℕ) (t : List ℕ) :
    consecDaysB (a :: b :: t) = ((b == a + 1) && consecDaysB (b :: t)) := by
  simp [consecDaysB]

/-- A step-1 `range'` passes the consecutive-day check. -/
theorem consecDaysB_range' : ∀ (l a : ℕ),
    consecDaysB (List.range' a l) = true := by
  intro l
  induction l with
  | zero => intro a; rfl
  | succ m ih =>
    intro a
    cases m with
    | zero => rfl
    | succ k =>
      have h1 : List.range' a (k + 1 + 1) = a :: List.range' (a + 1) (k + 1) :=
        List.range'_succ a (k + 1) 1
      have h2 : List.range' (a + 1) (k + 1) =
          (a + 1) :: List.range' (a + 2) k := List.range'_succ (a + 1) k 1
      rw [h1, h2, consecDaysB_cons, ← h2, ih (a + 1)]
      simp

/-- The dates of the engineered feature table of a reconstructed series
form a step-1 arithmetic progression starting at `dateMin + 90`. -/
theorem prepare_reconstruct_dates (obs : List Obs) :
    (prepare_features (reconstruct obs)).map (fun r => r.Date) =
      List.range' (dateMin obs + 90) ((reconstruct obs).length - 90) := by
  rw [prepare_features_eq, List.map_map]
  have hcong : ∀ j ∈ List.range ((reconstruct obs).length - 90),
      ((fun r => r.Date) ∘ fun j => featureRowAt (reconstruct obs) (90 + j)) j =
        (dateMin obs + 90) + j := by
    intro j hj
    rw [List.mem_range] at hj
    have hlt : 90 + j < (reconstruct obs).length := by omega
    have hd : dateAt (reconstruct obs) (90 + j) = dateMin obs + (90 + j) := by
      rw [dateAt, reconstruct]
      have hlt' : 90 + j < (List.range
          (dateMax obs - dateMin obs + 1)).length := by
        simpa [reconstruct] using hlt
      simp only [List.length_range] at hlt'
      rw [List.map_map, List.getD_eq_getElem?_getD, List.getElem?_map,
        List.getElem?_range hlt']
      rfl
    simp only [Function.comp, featureRowAt, hd]
    omega
  rw [List.map_congr_left hcong, List.range_eq_range',
    List.map_add_range' (dateMin obs + 90) 0 _ 1]

/-- C1 (amended): for a feature table of length `L` with `7 ≤ L ≤ D`,
the engine shrinks the horizon to `max(7, L / 3)` before splitting:
the test window is the last `max(7, L / 3)` rows, the training window
the preceding `L - max(7, L / 3)` rows, and the test width is at least
7.  The original claim, quantified over every `L ≤ D`, fails for
`L < 7`, where the slice `[-days:]` returns fewer than 7 rows. -/
theorem C1_shrink_split (feat : List FeatureRow) (D : ℕ)
    (h7 : 7 ≤ feat.length) (hLD : feat.length ≤ D) :
    pyTail feat (effDays feat.length D) =
      feat.drop (feat.length - max 7 (feat.length / 3)) ∧
    (pyTail feat (effDays feat.length D)).length =
      max 7 (feat.length / 3) ∧
    pyInit feat (effDays feat.length D) =
      feat.take (feat.length - max 7 (feat.length / 3)) ∧
    (pyInit feat (effDays feat.length D)).length =
      feat.length - max 7 (feat.length / 3) ∧
    7 ≤ (pyTail feat (effDays feat.length D)).length := by
  have hw : effDays feat.length D = max 7 (feat.length / 3) := if_pos hLD
  have h7w : 7 ≤ max 7 (feat.length / 3) := le_max_left _ _
  have hwL : max 7 (feat.length / 3) ≤ feat.length :=
    max_le h7 (Nat.div_le_self _ _)
  have hw0 : max 7 (feat.length / 3) ≠ 0 := by omega
  have htail : pyTail feat (effDays feat.length D) =
      feat.drop (feat.length - max 7 (feat.length / 3)) := by
    rw [hw, pyTail, if_neg hw0]
  have hinit : pyInit feat (effDays feat.length D) =
      feat.take (feat.length - max 7 (feat.length / 3)) := by
    rw [hw, pyInit, if_neg hw0]
  have hlen : (pyTail feat (effDays feat.length D)).length =
      max 7 (feat.length / 3) := by
    rw [htail, List.length_drop]
    omega
  refine ⟨htail, hlen, hinit, ?_, ?_⟩
  · rw [hinit, List.length_take, min_eq_left (by omega)]
  · omega

/-- C1 counterexample: a 95-day history leaves a 5-row feature table;
with requested horizon 30 the shrink sets the horizon to 7, but the
test window holds only the 5 available rows, so it is neither the last
`max(7, 5 / 3) = 7` rows nor at least 7 wide. -/
theorem C1_counterexample :
    ¬ ((pyTail (prepare_features (constSeries 95))
          (effDays (prepare_features (constSeries 95)).length 30)).length =
        max 7 ((prepare_features (constSeries 95)).length / 3) ∧
      7 ≤ (pyTail (prepare_features (constSeries 95))
          (effDays (prepare_features (constSeries 95)).length 30)).length) := by
  decide

/-- C1 witness: a 9-row feature table with horizon 30 shrinks to test
width `max(7, 3) = 7`. -/
theorem C1_witness :
    7 ≤ (pyTail (List.replicate 9 (default : FeatureRow))
        (effDays (List.replicate 9 (default : FeatureRow)).length 30)).length :=
  (C1_shrink_split (List.replicate 9 default) 30 (by decide) (by decide)).2.2.2.2

/-- C2: for nonempty observations, the reconstructed daily series has
length `(max - min).days + 1`; its `i`-th entry is day `dateMin + i`
(so it is strictly chronological and gap-free); every day between the
minimum and maximum observed date occurs; days absent from the
observations carry demand exactly 0; and `dateMin` / `dateMax` bound
the observed dates. -/
theorem C2_daily_grid (obs : List Obs) (h : obs ≠ []) :
    (reconstruct obs).length = dateMax obs - dateMin obs + 1 ∧
    (∀ i, i < (reconstruct obs).length →
      ((reconstruct obs).getD i (0, 0)).1 = dateMin obs + i) ∧
    (∀ d, dateMin obs ≤ d → d ≤ dateMax obs →
      d ∈ (reconstruct obs).map Prod.fst) ∧
    (∀ i, i < (reconstruct obs).length →
      dateMin obs + i ∉ obs.map Prod.fst →
      ((reconstruct obs).getD i (0, 0)).2 = 0) ∧
    (∀ d ∈ obs.map Prod.fst, dateMin obs ≤ d ∧ d ≤ dateMax obs) := by
  refine ⟨?_, ?_, ?_, ?_, ?_⟩
  · simp [reconstruct]
  · intro i hi
    rw [reconstruct_getD obs i hi]
  · intro d h1 h2
    rw [reconstruct, List.map_map]
    refine List.mem_map.mpr ⟨d - dateMin obs, ?_, ?_⟩
    · rw [List.mem_range]
      omega
    · simp only [Function.comp_apply]
      omega
  · intro i hi habs
    rw [reconstruct_getD obs i hi]
    exact sumAt_absent obs _ habs
  · intro d hd
    exact ⟨(dateMin_spec obs h).2 d hd, (dateMax_spec obs h).2 d hd⟩

/-- C2 witness: two observations on days 10 and 12 reconstruct to a
series of length 3. -/
theorem C2_witness :
    (reconstruct [((10 : ℕ), (3 : ℚ)), (12, 4)]).length =
      dateMax [((10 : ℕ), (3 : ℚ)), (12, 4)] -
        dateMin [((10 : ℕ), (3 : ℚ)), (12, 4)] + 1 :=
  (C2_daily_grid [((10 : ℕ), (3 : ℚ)), (12, 4)] (by decide)).1

/-- C3: when the data source yields no observations, or the observed
quantities sum to zero, the pipeline returns the empty sentinel bundle
and does not fail. -/
theorem C3_empty_sentinel (fit : List FeatureRow → FeatureRow → ℚ)
    (obs : List Obs) (days : ℕ)
    (h : obs = [] ∨ (obs.map Prod.snd).sum = 0) :
    forecast fit obs days = .ok emptyResult := by
  rw [forecast_def, if_pos h]

/-- C3 witness: an empty observation set yields the sentinel. -/
theorem C3_witness :
    forecast (fun _ _ => 0) [] 30 = .ok emptyResult :=
  C3_empty_sentinel (fun _ _ => 0) [] 30 (Or.inl rfl)

/-- C4 (amended): for a nonempty test window with nonnegative actuals
and aligned predictions, the reported accuracy
`round(max(0, 100 - MAPE), 2)` lies in `[0, 100]`, and the unrounded
score `max(0, 100 - MAPE)` equals 100 exactly when the predictions
equal the actuals.  The original claim that the *reported* (rounded)
accuracy equals 100.0 only on exact equality fails: any MAPE below
0.005 rounds to 100.0. -/
theorem C4_accuracy (a p : List ℚ) (h0 : a ≠ [])
    (hl : a.length = p.length) (hpos : ∀ x ∈ a, 0 ≤ x) :
    0 ≤ accuracyOf a p ∧ accuracyOf a p ≤ 100 ∧
      (max 0 (100 - mape a p) = 100 ↔ a = p) := by
  have hm := mape_nonneg a p hpos
  have hy0 : (0 : ℚ) ≤ max 0 (100 - mape a p) := le_max_left _ _
  have hy100 : max 0 (100 - mape a p) ≤ 100 := max_le (by norm_num) (by linarith)
  obtain ⟨hb1, hb2⟩ := round2_bounds _ hy0 hy100
  refine ⟨hb1, hb2, ?_, ?_⟩
  · intro hmax
    rcases max_eq_iff.mp hmax with ⟨h1, _⟩ | ⟨h1, _⟩
    · norm_num at h1
    · have hmz : mape a p = 0 := by linarith
      exact (mape_eq_zero_iff a p h0 hl hpos).mp hmz
  · intro hap
    have hmz : mape a p = 0 := (mape_eq_zero_iff a p h0 hl hpos).mpr hap
    rw [hmz]
    norm_num

/-- C4 counterexample: with actual `[1]` and prediction
`[1 + 10^(-6)]`, MAPE is positive yet far below 0.005, so the reported
accuracy rounds to exactly 100 although the prediction differs from
the actual. -/
theorem C4_counterexample :
    accuracyOf [1] [1 + 1 / 1000000] = 100 ∧
      [(1 : ℚ)] ≠ [1 + 1 / 1000000] := by
  constructor
  · have habs : |(1 : ℚ) - (1 + 1 / 1000000)| = 1 / 1000000 := by
      rw [show (1 : ℚ) - (1 + 1 / 1000000) = -(1 / 1000000) by ring, abs_neg,
        abs_of_nonneg (by norm_num)]
    have hm : mape [1] [1 + 1 / 1000000] = 10 / 100001 := by
      rw [mape, listMean]
      simp only [List.zip_cons_cons, List.zip_nil_right, List.map_cons,
        List.map_nil, List.sum_cons, List.sum_nil, List.length_cons,
        List.length_nil]
      rw [habs]
      norm_num
    rw [accuracyOf, hm,
      show max (0 : ℚ) (100 - 10 / 100001) = 10000090 / 100001 by
        rw [max_eq_right (by norm_num)]
        norm_num,
      round2,
      show (100 : ℚ) * (10000090 / 100001) = 1000009000 / 100001 by
        norm_num]
    have hf : ⌊(1000009000 : ℚ) / 100001⌋ = 9999 := by
      rw [Int.floor_eq_iff]
      constructor <;> norm_num
    unfold rhe
    rw [hf, if_neg (by norm_num), if_pos (by norm_num)]
    push_cast
    norm_num
  · simp only [ne_eq, List.cons.injEq, and_true]
    norm_num

/-- C4 witness: a perfect one-point prediction has nonnegative reported
accuracy. -/
theorem C4_witness : 0 ≤ accuracyOf [2] [2] :=
  (C4_accuracy [2] [2] (by decide) rfl
    (by
      intro x hx
      rw [List.mem_singleton] at hx
      rw [hx]
      norm_num)).1

/-- C5 (amended): the retained feature rows carry a time index that
increases by exactly 1 from row to row, but it starts at 90 — the
series position of the first retained row — not at 0:
`reset_index(drop=True)` renumbers the frame index while the
`TimeIndex` column, assigned by `np.arange` before `dropna`, keeps its
original values. -/
theorem C5_time_index (s : List (ℕ × ℚ)) (j : ℕ)
    (h : j < (prepare_features s).length) :
    ((prepare_features s).getD j default).TimeIndex = 90 + j := by
  rw [prepare_features_getD s j h]
  rfl

/-- C5 counterexample: a 91-day constant series retains exactly one
feature row and its time index is 90, not 0. -/
theorem C5_counterexample :
    (prepare_features (constSeries 91)).length = 1 ∧
      ((prepare_features (constSeries 91)).getD 0 default).TimeIndex ≠ 0 := by
  decide

/-- C5 witness: the first retained row of a 91-day constant series has
time index `90 + 0`. -/
theorem C5_witness :
    ((prepare_features (constSeries 91)).getD 0 default).TimeIndex = 90 + 0 :=
  C5_time_index (constSeries 91) 0 (by decide)

/-- C6 (amended): the feature table length is the series length minus
90 (the lag-90 lookback: `shift(90)` leaves positions 0..89 undefined);
a row survives `dropna` exactly when its series position is at least
90, all its features then being defined; and the 120-day constant
series keeps 30 rows — the first 90, not 89, are dropped. -/
theorem C6_feature_table_length :
    (∀ s : List (ℕ × ℚ), (prepare_features s).length = s.length - 90) ∧
    (∀ (s : List (ℕ × ℚ)) (i : ℕ), i < s.length →
      ((finalize (rawRow s i)).isSome ↔ 90 ≤ i)) ∧
    (prepare_features (constSeries 120)).length = 30 := by
  refine ⟨prepare_features_length, ?_, ?_⟩
  · intro s i _
    rw [finalize_rawRow]
    by_cases h : 90 ≤ i <;> simp [h]
  · rw [prepare_features_length]
    simp [constSeries]

/-- C6 counterexample: the 120-day constant series leaves 30 feature
rows, not the 31 the claim states. -/
theorem C6_counterexample :
    (prepare_features (constSeries 120)).length ≠ 31 := by
  decide

/-- C6 witness: row 95 of a 120-day series survives `dropna`. -/
theorem C6_witness :
    (finalize (rawRow (constSeries 120) 95)).isSome ↔ 90 ≤ 95 :=
  C6_feature_table_length.2.1 (constSeries 120) 95 (by decide)

/-- C7: each retained feature row, sitting at series position
`TimeIndex`, carries the series demand of that position, and its lag
features are the demands exactly 1, 7 and 90 positions earlier. -/
theorem C7_lag_features (s : List (ℕ × ℚ)) (j : ℕ)
    (h : j < (prepare_features s).length) :
    ((prepare_features s).getD j default).Demand =
      dem s ((prepare_features s).getD j default).TimeIndex ∧
    ((prepare_features s).getD j default).Lag1 =
      dem s (((prepare_features s).getD j default).TimeIndex - 1) ∧
    ((prepare_features s).getD j default).Lag7 =
      dem s (((prepare_features s).getD j default).TimeIndex - 7) ∧
    ((prepare_features s).getD j default).Lag90 =
      dem s (((prepare_features s).getD j default).TimeIndex - 90) := by
  rw [prepare_features_getD s j h]
  exact ⟨rfl, rfl, rfl, rfl⟩

/-- C7 witness: the single retained row of a 91-day constant series has
`Lag1` equal to the demand one position before its time index. -/
theorem C7_witness :
    ((prepare_features (constSeries 91)).getD 0 default).Lag1 =
      dem (constSeries 91)
        (((prepare_features (constSeries 91)).getD 0 default).TimeIndex - 1) :=
  (C7_lag_features (constSeries 91) 0 (by decide)).2.1

/-- C8: whenever the pipeline reaches the split (nonempty observations
with nonzero total demand) and the training window left by the shrink
policy is empty, the invocation fails with the propagated model-fit
error instead of returning a result bundle. -/
theorem C8_empty_train_error (fit : List FeatureRow → FeatureRow → ℚ)
    (obs : List Obs) (days : ℕ) (h1 : obs ≠ [])
    (h2 : (obs.map Prod.snd).sum ≠ 0)
    (h3 : pyInit (prepare_features (reconstruct obs))
      (effDays (prepare_features (reconstruct obs)).length days) = []) :
    forecast fit obs days = .error fitErrorMsg := by
  rw [forecast_def, if_neg (by push_neg; exact ⟨h1, h2⟩), if_pos h3]

/-- C8 witness: a 91-day span with only two sale days leaves a 1-row
feature table; the shrink keeps horizon 7, the training slice `[:-7]`
is empty, and the invocation errors. -/
theorem C8_witness :
    forecast (fun _ _ => 0) [(0, 5), (90, 5)] 30 = .error fitErrorMsg :=
  C8_empty_train_error (fun _ _ => 0) [(0, 5), (90, 5)] 30 (by decide)
    (by norm_num) (by decide)

/-- C9: every successful result bundle has dates, actuals and
predictions of equal length. -/
theorem C9_aligned (fit : List FeatureRow → FeatureRow → ℚ)
    (obs : List Obs) (days : ℕ) :
    resultAligned (forecast fit obs days) := by
  rw [forecast_def]
  split
  · exact ⟨rfl, rfl⟩
  · split
    · trivial
    · exact ⟨by simp, by simp⟩

/-- C10: the dates of every successful result bundle are consecutive
calendar days — the test window is a contiguous suffix of the gap-free
reconstructed grid. -/
theorem C10_consecutive_dates (fit : List FeatureRow → FeatureRow → ℚ)
    (obs : List Obs) (days : ℕ) :
    resultConsec (forecast fit obs days) := by
  rw [forecast_def]
  split
  · exact rfl
  · split
    · trivial
    · show consecDaysB ((pyTail (prepare_features (reconstruct obs))
        (effDays (prepare_features (reconstruct obs)).length days)).map
          (fun r => r.Date)) = true
      rw [pyTail]
      split
      · rw [prepare_reconstruct_dates]
        exact consecDaysB_range' _ _
      · rw [List.map_drop, prepare_reconstruct_dates, drop_range']
        exact consecDaysB_range' _ _

end Server
